import Mathlib

/-
Verification of the scoped key-value session store described by this
repository's specification, together with two tool functions taken
directly from the lab sources
(src/lab8_a2a/server/math_agent.py and
src/lab1_context_state/state_prefix_demo/agent.py).

The store itself (KeyScopeResolver, ScopedStateStore, SessionRegistry)
is implemented inside the external Google ADK library and is not part of
this repository's sources; following the specification, those components
are modelled here from the spec's own contract text.  Keys are modelled
as lists of characters, values as a small JSON-like inductive type, and
mappings as functions to Option.
-/

namespace Adk

/-- The four state scopes of the scoped key-value session store. -/
inductive Scope
  | SESSION
  | USER
  | APP
  | TEMP
deriving DecidableEq, Repr

/-- Keys are strings, modelled as lists of characters. -/
abbrev Key := List Char

/-- The characters of the literal "user:". -/
def userPre : Key := ['u', 's', 'e', 'r', ':']

/-- The characters of the literal "app:". -/
def appPre : Key := ['a', 'p', 'p', ':']

/-- The characters of the literal "temp:". -/
def tempPre : Key := ['t', 'e', 'm', 'p', ':']

/-- Modelled from the spec: KeyScopeResolver (spec section 4.1), which is
implemented inside the external ADK library and absent from src/.  Rule,
checked in this exact precedence order, first match wins: a key starting
with "user:" resolves to USER scope with the remainder as bare key; else
"app:" resolves to APP; else "temp:" resolves to TEMP; else SESSION with
the key unchanged. -/
def resolveKey (key : Key) : Scope × Key :=
  if userPre.isPrefixOf key then (Scope.USER, key.drop 5)
  else if appPre.isPrefixOf key then (Scope.APP, key.drop 4)
  else if tempPre.isPrefixOf key then (Scope.TEMP, key.drop 5)
  else (Scope.SESSION, key)

/-- The prefix text that selects each scope (empty for SESSION). -/
def scopeTag : Scope → Key
  | Scope.USER => userPre
  | Scope.APP => appPre
  | Scope.TEMP => tempPre
  | Scope.SESSION => []

theorem cons_prefix_exclusive {c d : Char} {l m key : Key} (hcd : c ≠ d)
    (hc : (c :: l) <+: key) (hd : (d :: m) <+: key) : False := by
  rcases hc with ⟨t, ht⟩
  rcases hd with ⟨u, hu⟩
  rw [← ht] at hu
  simp only [List.cons_append, List.cons.injEq] at hu
  exact hcd hu.1.symm

theorem resolveKey_of_userPre {key : Key} (h : userPre <+: key) :
    resolveKey key = (Scope.USER, key.drop 5) := by
  simp [resolveKey, List.isPrefixOf_iff_prefix.2 h]

theorem resolveKey_of_appPre {key : Key} (h : appPre <+: key) :
    resolveKey key = (Scope.APP, key.drop 4) := by
  have hu : ¬ userPre.isPrefixOf key = true := by
    rw [List.isPrefixOf_iff_prefix]
    intro hcontra
    exact cons_prefix_exclusive (by decide) hcontra h
  simp [resolveKey, hu, List.isPrefixOf_iff_prefix.2 h]

theorem resolveKey_of_tempPre {key : Key} (h : tempPre <+: key) :
    resolveKey key = (Scope.TEMP, key.drop 5) := by
  have hu : ¬ userPre.isPrefixOf key = true := by
    rw [List.isPrefixOf_iff_prefix]
    intro hcontra
    exact cons_prefix_exclusive (by decide) hcontra h
  have ha : ¬ appPre.isPrefixOf key = true := by
    rw [List.isPrefixOf_iff_prefix]
    intro hcontra
    exact cons_prefix_exclusive (by decide) hcontra h
  simp [resolveKey, hu, ha, List.isPrefixOf_iff_prefix.2 h]

theorem resolveKey_of_no_pre {key : Key} (hu : ¬ userPre <+: key)
    (ha : ¬ appPre <+: key) (ht : ¬ tempPre <+: key) :
    resolveKey key = (Scope.SESSION, key) := by
  simp only [resolveKey, List.isPrefixOf_iff_prefix]
  rw [if_neg hu, if_neg ha, if_neg ht]

/-- Reassembling the matched scope tag with the returned bare key always
reconstitutes the original key. -/
theorem scopeTag_resolveKey (key : Key) :
    scopeTag (resolveKey key).1 ++ (resolveKey key).2 = key := by
  by_cases hu : userPre <+: key
  · rcases hu with ⟨t, ht⟩
    rw [resolveKey_of_userPre ⟨t, ht⟩, ← ht]
    have : userPre.length = 5 := by decide
    simp [scopeTag, this ▸ List.drop_left userPre t]
  · by_cases ha : appPre <+: key
    · rcases ha with ⟨t, ht⟩
      rw [resolveKey_of_appPre ⟨t, ht⟩, ← ht]
      have : appPre.length = 4 := by decide
      simp [scopeTag, this ▸ List.drop_left appPre t]
    · by_cases htp : tempPre <+: key
      · rcases htp with ⟨t, ht⟩
        rw [resolveKey_of_tempPre ⟨t, ht⟩, ← ht]
        have : tempPre.length = 5 := by decide
        simp [scopeTag, this ▸ List.drop_left tempPre t]
      · rw [resolveKey_of_no_pre hu ha htp]
        simp [scopeTag]

/-- C1 (amended): for every string key, KeyScopeResolver classifies it by
checking the prefixes user:, app:, temp: in this precedence order (first
match wins; the three prefixes are in fact mutually exclusive), never
fails on any string, leaves an unprefixed key unchanged under SESSION
scope, and returns as bare key exactly the remainder after the matched
prefix, so that the matched scope tag concatenated with the bare key
reconstitutes the key (the bare key may still contain the prefix text as
a substring when the original key repeats it). -/
theorem c1_keyScopeResolver (key : Key) :
    (userPre <+: key → (resolveKey key).1 = Scope.USER)
    ∧ (appPre <+: key → (resolveKey key).1 = Scope.APP)
    ∧ (tempPre <+: key → (resolveKey key).1 = Scope.TEMP)
    ∧ (¬ userPre <+: key → ¬ appPre <+: key → ¬ tempPre <+: key →
        resolveKey key = (Scope.SESSION, key))
    ∧ scopeTag (resolveKey key).1 ++ (resolveKey key).2 = key := by
  refine ⟨?_, ?_, ?_, resolveKey_of_no_pre, scopeTag_resolveKey key⟩
  · intro h
    rw [resolveKey_of_userPre h]
  · intro h
    rw [resolveKey_of_appPre h]
  · intro h
    rw [resolveKey_of_tempPre h]

/-- Witness for c1_keyScopeResolver at the concrete keys "user:x",
"app:x", "temp:x" and "x". -/
theorem c1_keyScopeResolver_witness :
    (resolveKey (userPre ++ ['x'])).1 = Scope.USER
    ∧ (resolveKey (appPre ++ ['x'])).1 = Scope.APP
    ∧ (resolveKey (tempPre ++ ['x'])).1 = Scope.TEMP
    ∧ resolveKey ['x'] = (Scope.SESSION, ['x'])
    ∧ scopeTag (resolveKey (userPre ++ ['x'])).1 ++ (resolveKey (userPre ++ ['x'])).2
        = userPre ++ ['x'] :=
  ⟨(c1_keyScopeResolver (userPre ++ ['x'])).1 ⟨['x'], rfl⟩,
   (c1_keyScopeResolver (appPre ++ ['x'])).2.1 ⟨['x'], rfl⟩,
   (c1_keyScopeResolver (tempPre ++ ['x'])).2.2.1 ⟨['x'], rfl⟩,
   (c1_keyScopeResolver ['x']).2.2.2.1 (by decide) (by decide) (by decide),
   (c1_keyScopeResolver (userPre ++ ['x'])).2.2.2.2⟩

/-- Counterexample to C1 as stated: for the key "user:user:x" the
resolver returns the bare key "user:x", which still contains (indeed
starts with) the original "user:" prefix, refuting the clause that the
returned bare key never contains the original prefix. -/
theorem c1_keyScopeResolver_counterexample :
    resolveKey (userPre ++ (userPre ++ ['x'])) = (Scope.USER, userPre ++ ['x'])
    ∧ userPre.isPrefixOf (resolveKey (userPre ++ (userPre ++ ['x']))).2 = true := by
  constructor
  · decide
  · decide

/-- JSON-serializable store values, modelled as a small inductive type.
Values of this type are serializable by construction, so the spec's
SerializationError cannot arise in the model. -/
inductive Value
  | vInt : Int → Value
  | vStr : List Char → Value
  | vBool : Bool → Value
deriving DecidableEq, Repr

/-- A flat scope mapping from bare keys to optional values. -/
abbrev Mapping := Key → Option Value

/-- The empty mapping. -/
def emptyMapping : Mapping := fun _ => none

/-- Pointwise update of a mapping at one key. -/
def mset (m : Mapping) (k : Key) (v : Value) : Mapping :=
  fun q => if q = k then some v else m q

/-- A turn record of the event log, modelled as an opaque string. -/
abbrev Event := List Char

/-- The composite session identity (app_name, user_id, session_id). -/
structure Triple where
  app : List Char
  user : List Char
  sess : List Char
deriving DecidableEq, Repr

/-- Modelled from the spec: a Session (spec section 3) with its private
SESSION-scope mapping, its per-invocation TEMP scratch mapping, and its
append-only event log.  The Session entity lives in the external ADK
library and is absent from src/. -/
structure Session where
  sessionState : Mapping
  tempState : Mapping
  events : List Event

/-- Modelled from the spec: the SessionRegistry (spec section 4.3), which
owns the sessions keyed by triple and the shared USER and APP buckets.
The registry lives in the external ADK library and is absent from src/. -/
structure Registry where
  sessions : Triple → Option Session
  userBuckets : List Char → List Char → Mapping
  appBuckets : List Char → Mapping

/-- The sole hard failure of the registry model. -/
inductive RegError
  | duplicateSession
deriving DecidableEq, Repr

/-- The registry with no sessions and empty shared buckets. -/
def emptyRegistry : Registry :=
  { sessions := fun _ => none
    userBuckets := fun _ _ => emptyMapping
    appBuckets := fun _ => emptyMapping }

/-- Modelled from the spec: ScopedStateStore.set (spec section 4.2),
absent from src/.  The key's scope is resolved by KeyScopeResolver and
the bare key is written into the mapping that scope selects: the
session's own mapping for SESSION, the session's invocation scratch for
TEMP, the shared per-(app, user) bucket for USER and the shared per-app
bucket for APP. -/
def setState (reg : Registry) (t : Triple) (key : Key) (v : Value) : Registry :=
  match resolveKey key with
  | (Scope.SESSION, bk) =>
      { reg with sessions := fun q =>
          if q = t then
            (reg.sessions t).map fun s => { s with sessionState := mset s.sessionState bk v }
          else reg.sessions q }
  | (Scope.TEMP, bk) =>
      { reg with sessions := fun q =>
          if q = t then
            (reg.sessions t).map fun s => { s with tempState := mset s.tempState bk v }
          else reg.sessions q }
  | (Scope.USER, bk) =>
      { reg with userBuckets := fun a u =>
          if a = t.app ∧ u = t.user then mset (reg.userBuckets t.app t.user) bk v
          else reg.userBuckets a u }
  | (Scope.APP, bk) =>
      { reg with appBuckets := fun a =>
          if a = t.app then mset (reg.appBuckets t.app) bk v
          else reg.appBuckets a }

/-- Modelled from the spec: ScopedStateStore.get (spec section 4.2),
absent from src/.  Resolves the scope, looks the bare key up in the
corresponding mapping and returns the caller-supplied default when the
key is absent; it never fails. -/
def getState (reg : Registry) (t : Triple) (key : Key) (dflt : Value) : Value :=
  match resolveKey key with
  | (Scope.SESSION, bk) =>
      match reg.sessions t with
      | some s => (s.sessionState bk).getD dflt
      | none => dflt
  | (Scope.TEMP, bk) =>
      match reg.sessions t with
      | some s => (s.tempState bk).getD dflt
      | none => dflt
  | (Scope.USER, bk) => (reg.userBuckets t.app t.user bk).getD dflt
  | (Scope.APP, bk) => (reg.appBuckets t.app bk).getD dflt

/-- Overlay of two mappings where the second one wins on conflicts. -/
def overlay (base over : Mapping) : Mapping :=
  fun k =>
    match over k with
    | some v => some v
    | none => base k

/-- The SESSION-scope mapping of a session, empty when the session does
not exist. -/
def sessionMapOf (reg : Registry) (t : Triple) : Mapping :=
  match reg.sessions t with
  | some s => s.sessionState
  | none => emptyMapping

/-- Modelled from the spec: ScopedStateStore.merged_view (spec section
4.2), absent from src/.  APP values are applied first, then USER values
override same-named keys, then SESSION values override both; TEMP
entries are excluded. -/
def mergedView (reg : Registry) (t : Triple) : Mapping :=
  overlay (overlay (reg.appBuckets t.app) (reg.userBuckets t.app t.user)) (sessionMapOf reg t)

/-- Modelled from the spec: SessionRegistry.create_session (spec section
4.3), absent from src/.  Fails with DuplicateSessionError when the
triple already exists; otherwise installs a fresh session with an empty
event log and routes each entry of the initial state to its scope with
set semantics. -/
def createSession (reg : Registry) (t : Triple) (initState : List (Key × Value)) :
    Except RegError Registry :=
  match reg.sessions t with
  | some _ => Except.error RegError.duplicateSession
  | none =>
      let reg1 : Registry :=
        { reg with sessions := fun q =>
            if q = t then some ⟨emptyMapping, emptyMapping, []⟩
            else reg.sessions q }
      Except.ok (initState.foldl (fun r kv => setState r t kv.1 kv.2) reg1)

/-- Modelled from the spec: SessionRegistry.get_session (spec section
4.3), absent from src/.  Exact lookup returning none, not an error, when
the triple is absent. -/
def getSession (reg : Registry) (t : Triple) : Option Session :=
  reg.sessions t

/-- Modelled from the spec: SessionRegistry.delete_session (spec section
4.3), absent from src/.  Removes the session and its private
SESSION-scope mapping; the shared USER and APP buckets are untouched. -/
def deleteSession (reg : Registry) (t : Triple) : Registry :=
  { reg with sessions := fun q => if q = t then none else reg.sessions q }

/-- Modelled from the spec: SessionRegistry.append_event (spec section
4.3), absent from src/.  Appends one turn record to the session's event
log, the only mutator of the log. -/
def appendEvent (reg : Registry) (t : Triple) (e : Event) : Registry :=
  { reg with sessions := fun q =>
      if q = t then (reg.sessions t).map fun s => { s with events := s.events ++ [e] }
      else reg.sessions q }

/-- Modelled from the spec: the invocation boundary (spec sections 3 and
8), absent from src/.  Following the spec's declared policy, TEMP state
is reset when the invocation boundary advances. -/
def endInvocation (reg : Registry) (t : Triple) : Registry :=
  { reg with sessions := fun q =>
      if q = t then (reg.sessions t).map fun s => { s with tempState := emptyMapping }
      else reg.sessions q }

/-- The event log of a session, empty when the session does not exist. -/
def sessionEvents (reg : Registry) (t : Triple) : List Event :=
  match reg.sessions t with
  | some s => s.events
  | none => []

/-- Folding append_event over a list of turn records. -/
def appendAll (reg : Registry) (t : Triple) (es : List Event) : Registry :=
  es.foldl (fun r e => appendEvent r t e) reg

theorem resolveKey_userPre_append (k : Key) :
    resolveKey (userPre ++ k) = (Scope.USER, k) := by
  rw [resolveKey_of_userPre ⟨k, rfl⟩]
  rw [@List.drop_left' Char userPre k 5 rfl]

theorem resolveKey_appPre_append (k : Key) :
    resolveKey (appPre ++ k) = (Scope.APP, k) := by
  rw [resolveKey_of_appPre ⟨k, rfl⟩]
  rw [@List.drop_left' Char appPre k 4 rfl]

theorem resolveKey_tempPre_append (k : Key) :
    resolveKey (tempPre ++ k) = (Scope.TEMP, k) := by
  rw [resolveKey_of_tempPre ⟨k, rfl⟩]
  rw [@List.drop_left' Char tempPre k 5 rfl]

theorem setState_user_eq (reg : Registry) (t : Triple) (k : Key) (v : Value) :
    setState reg t (userPre ++ k) v =
      { reg with userBuckets := fun a u =>
          if a = t.app ∧ u = t.user then mset (reg.userBuckets t.app t.user) k v
          else reg.userBuckets a u } := by
  unfold setState
  rw [resolveKey_userPre_append]

theorem setState_app_eq (reg : Registry) (t : Triple) (k : Key) (v : Value) :
    setState reg t (appPre ++ k) v =
      { reg with appBuckets := fun a =>
          if a = t.app then mset (reg.appBuckets t.app) k v
          else reg.appBuckets a } := by
  unfold setState
  rw [resolveKey_appPre_append]

theorem setState_temp_eq (reg : Registry) (t : Triple) (k : Key) (v : Value) :
    setState reg t (tempPre ++ k) v =
      { reg with sessions := fun q =>
          if q = t then (reg.sessions t).map fun s => { s with tempState := mset s.tempState k v }
          else reg.sessions q } := by
  unfold setState
  rw [resolveKey_tempPre_append]

theorem setState_session_eq (reg : Registry) (t : Triple) {k : Key}
    (hk : (resolveKey k).1 = Scope.SESSION) (v : Value) :
    setState reg t k v =
      { reg with sessions := fun q =>
          if q = t then (reg.sessions t).map fun s => { s with sessionState := mset s.sessionState k v }
          else reg.sessions q } := by
  have hfull : resolveKey k = (Scope.SESSION, k) := by
    by_cases h1 : userPre.isPrefixOf k <;> by_cases h2 : appPre.isPrefixOf k <;>
      by_cases h3 : tempPre.isPrefixOf k <;>
      simp [resolveKey, h1, h2, h3] at hk ⊢
  unfold setState
  rw [hfull]

/-- A concrete session identity used in the example scenarios. -/
def demoTriple : Triple := ⟨['a'], ['u'], ['s']⟩

/-- The concrete key "x" of the spec's merged-view example. -/
def xKey : Key := ['x']

/-- The registry holding just the freshly created demo session. -/
def demoReg1 : Registry :=
  match createSession emptyRegistry demoTriple [] with
  | Except.ok r => r
  | Except.error _ => emptyRegistry

/-- The registry of the spec's merged-view example: APP x = 1, USER
x = 2, SESSION x = 3 for the demo session. -/
def demoReg : Registry :=
  setState
    (setState (setState demoReg1 demoTriple (appPre ++ xKey) (Value.vInt 1))
      demoTriple (userPre ++ xKey) (Value.vInt 2))
    demoTriple xKey (Value.vInt 3)

/-- C2: for every store state, merged_view overlays the APP bucket first,
then the USER bucket, then the session's own SESSION mapping (expressed
pointwise: a key's merged value comes from the SESSION mapping when
present there, else the USER bucket, else the APP bucket); TEMP entries
are excluded, so a temp:-prefixed write never changes the merged view;
and in the concrete example with APP x = 1, USER x = 2, SESSION x = 3
the merged view maps x to 3. -/
theorem c2_mergedView_precedence (reg : Registry) (t : Triple) (k : Key) :
    mergedView reg t k =
      (match sessionMapOf reg t k with
       | some v => some v
       | none =>
           match reg.userBuckets t.app t.user k with
           | some v => some v
           | none => reg.appBuckets t.app k)
    ∧ (∀ (tk : Key) (v : Value),
        mergedView (setState reg t (tempPre ++ tk) v) t = mergedView reg t)
    ∧ mergedView demoReg demoTriple xKey = some (Value.vInt 3) := by
  refine ⟨rfl, ?_, by decide⟩
  intro tk v
  funext q
  rw [setState_temp_eq]
  unfold mergedView overlay sessionMapOf
  simp only [if_pos rfl]
  cases reg.sessions t <;> simp

theorem resolveKey_session_full {k : Key} (hk : (resolveKey k).1 = Scope.SESSION) :
    resolveKey k = (Scope.SESSION, k) := by
  by_cases h1 : userPre.isPrefixOf k <;> by_cases h2 : appPre.isPrefixOf k <;>
    by_cases h3 : tempPre.isPrefixOf k <;>
    simp [resolveKey, h1, h2, h3] at hk ⊢

/-- C3: a user:-scoped write performed through any session is immediately
visible through get from every session with the same app_name and
user_id, whatever the session ids are. -/
theorem c3_userScope_sharing (reg : Registry) (t1 t2 : Triple) (k : Key)
    (v dflt : Value) (ha : t1.app = t2.app) (hu : t1.user = t2.user) :
    getState (setState reg t1 (userPre ++ k) v) t2 (userPre ++ k) dflt = v := by
  rw [setState_user_eq]
  unfold getState
  rw [resolveKey_userPre_append]
  simp [ha, hu, mset]

/-- Witness for c3_userScope_sharing: a write of user:p in session 1 of
user u is read back from session 2 of the same user. -/
theorem c3_userScope_sharing_witness :
    getState (setState emptyRegistry ⟨['a'], ['u'], ['1']⟩ (userPre ++ ['p']) (Value.vInt 7))
      ⟨['a'], ['u'], ['2']⟩ (userPre ++ ['p']) (Value.vInt 0) = Value.vInt 7 :=
  c3_userScope_sharing emptyRegistry ⟨['a'], ['u'], ['1']⟩ ⟨['a'], ['u'], ['2']⟩ ['p']
    (Value.vInt 7) (Value.vInt 0) rfl rfl

/-- C4: for two distinct sessions of the same app and user, a write of an
unprefixed SESSION-scope key in one session leaves the value observed by
get of that key in the other session unchanged. -/
theorem c4_session_isolation (reg : Registry) (a u s1 s2 : List Char) (k : Key)
    (v dflt : Value) (hne : s1 ≠ s2) (hk : (resolveKey k).1 = Scope.SESSION) :
    getState (setState reg ⟨a, u, s1⟩ k v) ⟨a, u, s2⟩ k dflt
      = getState reg ⟨a, u, s2⟩ k dflt := by
  rw [setState_session_eq _ _ hk]
  unfold getState
  rw [resolveKey_session_full hk]
  have hne2 : (⟨a, u, s2⟩ : Triple) ≠ ⟨a, u, s1⟩ := by
    intro hcontra
    exact hne (congrArg Triple.sess hcontra).symm
  simp [hne2]

/-- Witness for c4_session_isolation: a write of the bare key c in
session 1 is not visible from session 2 of the same user. -/
theorem c4_session_isolation_witness :
    getState (setState emptyRegistry ⟨['a'], ['u'], ['1']⟩ ['c'] (Value.vInt 1))
      ⟨['a'], ['u'], ['2']⟩ ['c'] (Value.vInt 0)
      = getState emptyRegistry ⟨['a'], ['u'], ['2']⟩ ['c'] (Value.vInt 0) :=
  c4_session_isolation emptyRegistry ['a'] ['u'] ['1'] ['2'] ['c']
    (Value.vInt 1) (Value.vInt 0) (by decide) (by decide)

theorem createSession_of_none {reg : Registry} {t : Triple} (h : reg.sessions t = none)
    (st : List (Key × Value)) :
    createSession reg t st = Except.ok (st.foldl (fun r kv => setState r t kv.1 kv.2)
      { reg with sessions := fun q =>
          if q = t then some ⟨emptyMapping, emptyMapping, []⟩ else reg.sessions q }) := by
  unfold createSession
  rw [h]

theorem createSession_of_some {reg : Registry} {t : Triple} {s : Session}
    (h : reg.sessions t = some s) (st : List (Key × Value)) :
    createSession reg t st = Except.error RegError.duplicateSession := by
  unfold createSession
  rw [h]

theorem setState_sessions_isSome (reg : Registry) (t : Triple) (k : Key) (v : Value)
    (q : Triple) :
    ((setState reg t k v).sessions q).isSome = (reg.sessions q).isSome := by
  rcases hrk : resolveKey k with ⟨sc, bk⟩
  unfold setState
  rw [hrk]
  cases sc
  · by_cases hq : q = t <;> simp [hq]
  · rfl
  · rfl
  · by_cases hq : q = t <;> simp [hq]

theorem foldl_setState_sessions_isSome (l : List (Key × Value)) (t q : Triple) :
    ∀ reg : Registry,
      ((l.foldl (fun r kv => setState r t kv.1 kv.2) reg).sessions q).isSome
        = (reg.sessions q).isSome := by
  induction l with
  | nil => intro reg; rfl
  | cons kv rest ih =>
      intro reg
      simp only [List.foldl_cons]
      rw [ih, setState_sessions_isSome]

/-- C5: creating the same (app_name, user_id, session_id) triple twice
fails with DuplicateSessionError on the second call, while the first
session keeps existing (in the purely functional model the failing call
returns no new registry, so the first session's state and event log are
untouched by construction); lookups like get_session, by contrast,
return an option and never fail. -/
theorem c5_duplicate_create (reg r1 : Registry) (t : Triple)
    (st st2 : List (Key × Value))
    (h : createSession reg t st = Except.ok r1) :
    createSession r1 t st2 = Except.error RegError.duplicateSession
    ∧ (getSession r1 t).isSome = true := by
  rcases hrs : reg.sessions t with _ | s
  · rw [createSession_of_none hrs st] at h
    have hr1 : r1 = st.foldl (fun r kv => setState r t kv.1 kv.2)
        { reg with sessions := fun q =>
            if q = t then some ⟨emptyMapping, emptyMapping, []⟩ else reg.sessions q } :=
      (Except.ok.inj h).symm
    have hsome : (r1.sessions t).isSome = true := by
      rw [hr1, foldl_setState_sessions_isSome]
      simp
    rcases hs1 : r1.sessions t with _ | s1
    · rw [hs1] at hsome
      simp at hsome
    · exact ⟨createSession_of_some hs1 st2, hsome⟩
  · rw [createSession_of_some hrs st] at h
    simp at h

/-- Witness for c5_duplicate_create: creating the demo triple a second
time fails with DuplicateSessionError. -/
theorem c5_duplicate_create_witness :
    createSession demoReg1 demoTriple [] = Except.error RegError.duplicateSession
    ∧ (getSession demoReg1 demoTriple).isSome = true :=
  c5_duplicate_create emptyRegistry demoReg1 demoTriple [] [] rfl

/-- C6: a key written with the temp: prefix during an invocation is gone
once the invocation boundary advances (the spec's reset-at-invocation-
boundary policy), so a get of the temp:-prefixed key afterwards returns
the caller-supplied default. -/
theorem c6_temp_nonpersistence (reg : Registry) (t : Triple) (k : Key) (v dflt : Value) :
    getState (endInvocation (setState reg t (tempPre ++ k) v) t) t (tempPre ++ k) dflt
      = dflt := by
  rw [setState_temp_eq]
  unfold getState endInvocation
  rw [resolveKey_tempPre_append]
  simp only [if_pos rfl]
  cases reg.sessions t <;> simp [emptyMapping]

theorem appendEvent_events_of_isSome {reg : Registry} {t : Triple}
    (hs : (reg.sessions t).isSome = true) (e : Event) :
    sessionEvents (appendEvent reg t e) t = sessionEvents reg t ++ [e] := by
  unfold appendEvent sessionEvents
  rcases hx : reg.sessions t with _ | s
  · rw [hx] at hs
    simp at hs
  · simp [hx]

theorem appendEvent_sessions_isSome (reg : Registry) (t : Triple) (e : Event) (q : Triple) :
    ((appendEvent reg t e).sessions q).isSome = (reg.sessions q).isSome := by
  unfold appendEvent
  by_cases hq : q = t <;> simp [hq]

theorem appendAll_events (es : List Event) :
    ∀ (reg : Registry) (t : Triple), (reg.sessions t).isSome = true →
      sessionEvents (appendAll reg t es) t = sessionEvents reg t ++ es := by
  induction es with
  | nil =>
      intro reg t _
      simp [appendAll]
  | cons e rest ih =>
      intro reg t hs
      have h1 : appendAll reg t (e :: rest) = appendAll (appendEvent reg t e) t rest := rfl
      rw [h1, ih _ t (by rw [appendEvent_sessions_isSome]; exact hs),
          appendEvent_events_of_isSome hs e]
      simp

theorem setState_sessionEvents (reg : Registry) (t2 t : Triple) (k : Key) (v : Value) :
    sessionEvents (setState reg t2 k v) t = sessionEvents reg t := by
  rcases hrk : resolveKey k with ⟨sc, bk⟩
  unfold setState sessionEvents
  rw [hrk]
  cases sc
  · by_cases hq : t = t2
    · subst hq
      simp only [if_pos rfl]
      cases reg.sessions t <;> simp
    · simp [hq]
  · rfl
  · rfl
  · by_cases hq : t = t2
    · subst hq
      simp only [if_pos rfl]
      cases reg.sessions t <;> simp
    · simp [hq]

theorem endInvocation_sessionEvents (reg : Registry) (t2 t : Triple) :
    sessionEvents (endInvocation reg t2) t = sessionEvents reg t := by
  unfold endInvocation sessionEvents
  by_cases hq : t = t2
  · subst hq
    simp only [if_pos rfl]
    cases reg.sessions t <;> simp
  · simp [hq]

/-- C7: appending a sequence of turn records grows the session's event
log by exactly that sequence, so the log's length rises by the number of
calls and every earlier entry keeps its position and content; state
writes and the invocation boundary leave the event log of every session
unchanged (get and merged_view return values without producing a new
registry, so they cannot modify it). -/
theorem c7_eventLog_appendOnly (reg : Registry) (t t2 : Triple) (es : List Event)
    (k : Key) (v : Value) (hs : (reg.sessions t).isSome = true) :
    sessionEvents (appendAll reg t es) t = sessionEvents reg t ++ es
    ∧ (sessionEvents (appendAll reg t es) t).length
        = (sessionEvents reg t).length + es.length
    ∧ (sessionEvents (appendAll reg t es) t).take (sessionEvents reg t).length
        = sessionEvents reg t
    ∧ sessionEvents (setState reg t2 k v) t = sessionEvents reg t
    ∧ sessionEvents (endInvocation reg t2) t = sessionEvents reg t := by
  have h1 := appendAll_events es reg t hs
  refine ⟨h1, ?_, ?_, setState_sessionEvents reg t2 t k v,
    endInvocation_sessionEvents reg t2 t⟩
  · rw [h1]
    simp
  · rw [h1]
    exact List.take_left (sessionEvents reg t) es

/-- Witness for c7_eventLog_appendOnly: appending two events to the demo
session's log. -/
theorem c7_eventLog_appendOnly_witness :
    sessionEvents (appendAll demoReg1 demoTriple [['e'], ['f']]) demoTriple
        = sessionEvents demoReg1 demoTriple ++ [['e'], ['f']]
    ∧ (sessionEvents (appendAll demoReg1 demoTriple [['e'], ['f']]) demoTriple).length
        = (sessionEvents demoReg1 demoTriple).length + ([['e'], ['f']] : List Event).length
    ∧ (sessionEvents (appendAll demoReg1 demoTriple [['e'], ['f']]) demoTriple).take
        (sessionEvents demoReg1 demoTriple).length = sessionEvents demoReg1 demoTriple
    ∧ sessionEvents (setState demoReg1 demoTriple ['c'] (Value.vInt 1)) demoTriple
        = sessionEvents demoReg1 demoTriple
    ∧ sessionEvents (endInvocation demoReg1 demoTriple) demoTriple
        = sessionEvents demoReg1 demoTriple :=
  c7_eventLog_appendOnly demoReg1 demoTriple demoTriple [['e'], ['f']] ['c']
    (Value.vInt 1) rfl

/-- C8: delete_session removes exactly the addressed session (its lookup
turns to none) while every other session, the shared per-user USER
buckets and the shared per-app APP buckets are untouched, so user: and
app: reads from any other session return the same values as before the
deletion. -/
theorem c8_deleteSession_frame (reg : Registry) (t t2 : Triple) (hne : t2 ≠ t) :
    getSession (deleteSession reg t) t = none
    ∧ getSession (deleteSession reg t) t2 = getSession reg t2
    ∧ (deleteSession reg t).userBuckets = reg.userBuckets
    ∧ (deleteSession reg t).appBuckets = reg.appBuckets
    ∧ (∀ (k : Key) (dflt : Value),
        getState (deleteSession reg t) t2 (userPre ++ k) dflt
          = getState reg t2 (userPre ++ k) dflt)
    ∧ (∀ (k : Key) (dflt : Value),
        getState (deleteSession reg t) t2 (appPre ++ k) dflt
          = getState reg t2 (appPre ++ k) dflt) := by
  refine ⟨?_, ?_, rfl, rfl, ?_, ?_⟩
  · simp [getSession, deleteSession]
  · simp [getSession, deleteSession, hne]
  · intro k dflt
    unfold getState
    rw [resolveKey_userPre_append]
    rfl
  · intro k dflt
    unfold getState
    rw [resolveKey_appPre_append]
    rfl

/-- Witness for c8_deleteSession_frame: deleting the demo session leaves
another session's view of shared state intact. -/
theorem c8_deleteSession_frame_witness :
    getSession (deleteSession demoReg demoTriple) demoTriple = none
    ∧ getSession (deleteSession demoReg demoTriple) ⟨['a'], ['u'], ['z']⟩
        = getSession demoReg ⟨['a'], ['u'], ['z']⟩
    ∧ (deleteSession demoReg demoTriple).userBuckets = demoReg.userBuckets
    ∧ (deleteSession demoReg demoTriple).appBuckets = demoReg.appBuckets
    ∧ (∀ (k : Key) (dflt : Value),
        getState (deleteSession demoReg demoTriple) ⟨['a'], ['u'], ['z']⟩ (userPre ++ k) dflt
          = getState demoReg ⟨['a'], ['u'], ['z']⟩ (userPre ++ k) dflt)
    ∧ (∀ (k : Key) (dflt : Value),
        getState (deleteSession demoReg demoTriple) ⟨['a'], ['u'], ['z']⟩ (appPre ++ k) dflt
          = getState demoReg ⟨['a'], ['u'], ['z']⟩ (appPre ++ k) dflt) :=
  c8_deleteSession_frame demoReg demoTriple ⟨['a'], ['u'], ['z']⟩ (by decide)

/-- Embedding of add from src/lab8_a2a/server/math_agent.py: the sum of
a and b.  Numbers are modelled as exact rationals. -/
def add (a b : ℚ) : ℚ := a + b

/-- Embedding of subtract from src/lab8_a2a/server/math_agent.py: the
difference a - b. -/
def subtract (a b : ℚ) : ℚ := a - b

/-- Embedding of multiply from src/lab8_a2a/server/math_agent.py: the
product of a and b. -/
def multiply (a b : ℚ) : ℚ := a * b

/-- Embedding of divide from src/lab8_a2a/server/math_agent.py: raises
ValueError (modelled as Except.error carrying the message) when b is
zero, else returns the quotient a / b. -/
def divide (a b : ℚ) : Except String ℚ :=
  if b = 0 then Except.error "Cannot divide by zero" else Except.ok (a / b)

/-- C9: divide fails exactly when the denominator b is zero, raising the
ValueError message of the source, and for nonzero b it returns the exact
quotient a / b (multiplying the result by b restores a); add, subtract
and multiply are total functions that never fail, with subtract undoing
add and divide undoing multiply. -/
theorem c9_math_tools (a b : ℚ) :
    ((divide a b).toOption = none ↔ b = 0)
    ∧ (b = 0 → divide a b = Except.error "Cannot divide by zero")
    ∧ (b ≠ 0 → divide a b = Except.ok (a / b) ∧ a / b * b = a)
    ∧ subtract (add a b) b = a
    ∧ (b ≠ 0 → divide (multiply a b) b = Except.ok a) := by
  refine ⟨⟨?_, ?_⟩, ?_, ?_, ?_, ?_⟩
  · intro h
    by_contra hb
    simp [divide, hb, Except.toOption] at h
  · intro hb
    simp [divide, hb, Except.toOption]
  · intro hb
    simp [divide, hb]
  · intro hb
    refine ⟨by simp [divide, hb], div_mul_cancel₀ a hb⟩
  · simp [subtract, add]
  · intro hb
    simp [divide, multiply, hb, mul_div_cancel_right₀ a hb]

/-- Witness for c9_math_tools: dividing 6 by 2 succeeds with quotient
6 / 2, which multiplied back by 2 gives 6. -/
theorem c9_math_tools_witness :
    divide 6 2 = Except.ok (6 / 2) ∧ (6 : ℚ) / 2 * 2 = 6 :=
  (c9_math_tools 6 2).2.2.1 (by norm_num)

/-- Python-like dynamic values as stored in tool_context.state and
returned in a tool's result dictionary. -/
inductive PyVal
  | pInt : Int → PyVal
  | pStr : String → PyVal
  | pBool : Bool → PyVal
  | pDict : List (String × PyVal) → PyVal

/-- The tool_context.state dictionary of the state_prefix_demo agent. -/
abbrev TCState := String → Option PyVal

/-- Embedding of tool_context.state.get(key, default). -/
def tcGet (st : TCState) (k : String) (dflt : PyVal) : PyVal :=
  (st k).getD dflt

/-- Embedding of the assignment tool_context.state[key] = value. -/
def tcSet (st : TCState) (k : String) (v : PyVal) : TCState :=
  fun q => if q = k then some v else st q

/-- Reading a dynamic value as a Python int: none models the TypeError a
subsequent arithmetic use would raise on a non-int. -/
def asInt : PyVal → Option Int
  | PyVal.pInt n => some n
  | _ => none

/-- Embedding of demonstrate_state_prefixes from
src/lab1_context_state/state_prefix_demo/agent.py.  The action write_all
first reads the three counters (with default 0), then writes the six
keys in source order and returns the written dictionary; read_all
returns the five current values with the string not set as default; any
other action returns the unknown-action dictionary.  The result pairs
the returned dictionary with the state after the call; none models an
uncaught TypeError on a non-numeric counter. -/
def demonstrate_state_prefixes (action : String) (st : TCState) :
    Option (List (String × PyVal) × TCState) :=
  if action = "write_all" then
    match asInt (tcGet st "session_counter" (PyVal.pInt 0)),
        asInt (tcGet st "user:login_count" (PyVal.pInt 0)),
        asInt (tcGet st "app:total_requests" (PyVal.pInt 0)) with
    | some sessionCounter, some userLogin, some appRequests =>
        let st1 := tcSet st "session_counter" (PyVal.pInt (sessionCounter + 1))
        let st2 := tcSet st1 "user:preference" (PyVal.pStr "dark_mode")
        let st3 := tcSet st2 "user:login_count" (PyVal.pInt (userLogin + 1))
        let st4 := tcSet st3 "app:total_requests" (PyVal.pInt (appRequests + 1))
        let st5 := tcSet st4 "temp:request_id" (PyVal.pStr "req_12345")
        let st6 := tcSet st5 "temp:processing" (PyVal.pBool true)
        some ([("action", PyVal.pStr "write_all"),
               ("written", PyVal.pDict
                 [("session_counter", PyVal.pInt (sessionCounter + 1)),
                  ("user:preference", PyVal.pStr "dark_mode"),
                  ("user:login_count", PyVal.pInt (userLogin + 1)),
                  ("app:total_requests", PyVal.pInt (appRequests + 1)),
                  ("temp:request_id", PyVal.pStr "req_12345")])], st6)
    | _, _, _ => none
  else if action = "read_all" then
    some ([("action", PyVal.pStr "read_all"),
           ("session_counter", tcGet st "session_counter" (PyVal.pStr "not set")),
           ("user:preference", tcGet st "user:preference" (PyVal.pStr "not set")),
           ("user:login_count", tcGet st "user:login_count" (PyVal.pStr "not set")),
           ("app:total_requests", tcGet st "app:total_requests" (PyVal.pStr "not set")),
           ("temp:request_id", tcGet st "temp:request_id" (PyVal.pStr "not set"))], st)
  else
    some ([("action", PyVal.pStr action), ("status", PyVal.pStr "unknown action")], st)

/-- C10: for every action other than write_all and read_all the tool
answers with the dictionary echoing the action and carrying status
unknown action, hands back the tool_context state unchanged (so every
state scope is left as it was), and reads nothing from the state: its
returned dictionary is the same whatever the state holds. -/
theorem c10_unknown_action (action : String) (st st2 : TCState)
    (h1 : action ≠ "write_all") (h2 : action ≠ "read_all") :
    demonstrate_state_prefixes action st
      = some ([("action", PyVal.pStr action), ("status", PyVal.pStr "unknown action")], st)
    ∧ (demonstrate_state_prefixes action st).map Prod.fst
      = (demonstrate_state_prefixes action st2).map Prod.fst := by
  refine ⟨?_, ?_⟩ <;> simp [demonstrate_state_prefixes, if_neg h1, if_neg h2]

/-- Witness for c10_unknown_action at the concrete action noop, once on
the empty state and once on a nonempty state. -/
theorem c10_unknown_action_witness :
    demonstrate_state_prefixes "noop" (fun _ => none)
      = some ([("action", PyVal.pStr "noop"), ("status", PyVal.pStr "unknown action")],
          fun _ => none)
    ∧ (demonstrate_state_prefixes "noop" (fun _ => none)).map Prod.fst
      = (demonstrate_state_prefixes "noop"
          (fun _ => some (PyVal.pInt 5))).map Prod.fst :=
  c10_unknown_action "noop" (fun _ => none) (fun _ => some (PyVal.pInt 5))
    (by decide) (by decide)

end Adk
